import Mathlib

/-!
Verification of the descriptor registry (package protoregistry) and the
message reflection engine (package impl) of this repository.

The registry (`Files`) is a trie keyed by dotted package-name segments.
Full names are modelled as lists of segments (`FullName := List String`),
so the Go `splitPrefix` becomes head/tail decomposition of the list.
Go maps are modelled as association lists with unique keys, where map
assignment replaces an existing entry or appends a new one, and deletion
removes the entry.
-/

namespace Protoregistry

/-- Name is a single protobuf identifier segment (Go protoreflect.Name). -/
abbrev Name := String

/-- FullName is a dotted name, modelled as its list of segments
(Go protoreflect.FullName). -/
abbrev FullName := List String

/-- FileDescriptor models the registry-relevant surface of a
protoreflect.FileDescriptor: its path, package, the top-level declared
names in the order produced by rangeTopLevelDeclarations, the
DescriptorByName mapping (descriptors identified by a numeric id), and
the placeholder flag. -/
structure FileDescriptor where
  path : String
  pkg : FullName
  decls : List Name
  byName : List (FullName × Nat)
  isPlaceholder : Bool
deriving DecidableEq, Repr

/-- PkgTree models the Go struct filesByPackage: a list of files in this
exact package, and the child map `subs`. A subs entry with value `none`
models the notProtoPackage sentinel (the identifier is a top-level
declaration); a value `some t` is a sub-package subtree; an absent key
models a nil map entry. -/
inductive PkgTree : Type where
  | mk (files : List FileDescriptor) (subs : List (Name × Option PkgTree))
deriving Repr

/-- Files of the package list at a trie node. -/
def PkgTree.files : PkgTree → List FileDescriptor
  | .mk fs _ => fs

/-- Child map of a trie node. -/
def PkgTree.subs : PkgTree → List (Name × Option PkgTree)
  | .mk _ s => s

/-- The zero value new(filesByPackage): no files, empty subs. -/
def emptyPkgTree : PkgTree := .mk [] []

/-- Lookup in the modelled Go map: `none` is a nil entry, `some none` is
the notProtoPackage sentinel, `some (some t)` a sub-package node. -/
def lookupName : List (Name × Option PkgTree) → Name → Option (Option PkgTree)
  | [], _ => none
  | (k, v) :: rest, n => if k = n then some v else lookupName rest n

/-- Go map assignment: replace the entry if the key is present, otherwise
append a new entry. -/
def insertName : List (Name × Option PkgTree) → Name → Option PkgTree →
    List (Name × Option PkgTree)
  | [], n, v => [(n, v)]
  | (k, w) :: rest, n, v =>
    if k = n then (k, v) :: rest else (k, w) :: insertName rest n v

/-- Go map deletion: remove the entry with the given key. -/
def eraseName : List (Name × Option PkgTree) → Name → List (Name × Option PkgTree)
  | [], _ => []
  | (k, w) :: rest, n => if k = n then rest else (k, w) :: eraseName rest n

mutual
/-- All files registered anywhere in a trie (used to state what "a
registered file" means for lookup claims). -/
def allFilesTree : PkgTree → List FileDescriptor
  | .mk files subs => files ++ allFilesSubs subs

/-- All files registered in any subtree of a subs map; sentinels hold none. -/
def allFilesSubs : List (Name × Option PkgTree) → List FileDescriptor
  | [] => []
  | (_, none) :: rest => allFilesSubs rest
  | (_, some t) :: rest => allFilesTree t ++ allFilesSubs rest
end

/-- RegError models the error produced by Files.Register: the path of the
rejected file and the conflicting full name reported in the message. -/
structure RegError where
  path : String
  name : FullName
deriving DecidableEq, Repr

/-- Files models the registry: the package trie and the path index
(Go map from path to the list of files registered under it). -/
structure Files where
  filesByPackage : PkgTree
  filesByPath : List (String × List FileDescriptor)
deriving Repr

/-- The zero value new(Files). -/
def emptyFiles : Files := ⟨emptyPkgTree, []⟩

/-- Lookup in the path index. -/
def lookupPath : List (String × List FileDescriptor) → String →
    Option (List FileDescriptor)
  | [], _ => none
  | (k, v) :: rest, p => if k = p then some v else lookupPath rest p

/-- Go `r.filesByPath[path] = append(r.filesByPath[path], file)`. -/
def insertPath (l : List (String × List FileDescriptor)) (p : String)
    (file : FileDescriptor) : List (String × List FileDescriptor) :=
  match l with
  | [] => [(p, [file])]
  | (k, v) :: rest =>
    if k = p then (k, v ++ [file]) :: rest else (k, v) :: insertPath rest p file

/-- The top-level declaration loop of Register (source lines 143-152):
for each declared name in order, if the subs entry is nil insert the
notProtoPackage sentinel, otherwise append the name to conflicts.
Returns the updated subs and the conflicts in encounter order. -/
def insertDecls : List (Name × Option PkgTree) → List Name →
    List (Name × Option PkgTree) × List Name
  | subs, [] => (subs, [])
  | subs, s :: rest =>
    match lookupName subs s with
    | none => insertDecls (insertName subs s none) rest
    | some _ =>
      let (subs', cs) := insertDecls subs rest
      (subs', s :: cs)

/-- Lexicographic less-or-equal on character lists by code point, the
order Go's `sort.Slice(conflicts, ...)` sorts names by (byte-wise string
comparison; protobuf identifiers are ASCII, where code-point order and
byte order agree). Written as a Bool so it evaluates by kernel reduction. -/
def charsLe : List Char → List Char → Bool
  | [], _ => true
  | _ :: _, [] => false
  | a :: as, b :: bs =>
    if a.val.toNat < b.val.toNat then true
    else if b.val.toNat < a.val.toNat then false
    else charsLe as bs

/-- Name comparison used to sort the conflicts slice. -/
def nameLe (a b : Name) : Bool := charsLe a.data b.data

/-- Insert a name into an already-sorted list (insertion sort step). -/
def insertSorted (a : Name) : List Name → List Name
  | [] => [a]
  | b :: rest => if nameLe a b then a :: b :: rest else b :: insertSorted a rest

/-- Sort a list of names ascending, modelling Go's sort.Slice on the
conflicts slice. -/
def sortNames : List Name → List Name
  | [] => []
  | a :: rest => insertSorted a (sortNames rest)

/-- The cleanup loop of Register (source lines 156-161): for each declared
name, when it is not among the (sorted) conflicts — which is what the
sort.Search membership test computes — delete its entry. -/
def cleanupDecls (sorted : List Name) : List (Name × Option PkgTree) →
    List Name → List (Name × Option PkgTree)
  | subs, [] => subs
  | subs, s :: rest =>
    if sorted.contains s then cleanupDecls sorted subs rest
    else cleanupDecls sorted (eraseName subs s) rest

/-- The leaf phase of Register at the file's package node (source lines
139-169): insert sentinels for the declared names, and on any conflict
undo the insertions (atomic failure) and report the smallest conflicting
name; otherwise append the file to the node's file list. -/
def registerLeaf (file : FileDescriptor) : PkgTree → PkgTree × Option RegError
  | .mk files subs =>
    let r := insertDecls subs file.decls
    match r.2 with
    | [] => (.mk (files ++ [file]) r.1, none)
    | c :: cs =>
      let sorted := sortNames (c :: cs)
      let subs' := cleanupDecls sorted r.1 file.decls
      (.mk files subs', some ⟨file.path, file.pkg ++ [sorted.headI]⟩)

/-- The package walk of Register (source lines 114-138): descend the trie
one segment at a time, creating nodes for absent segments, failing on the
notProtoPackage sentinel, and running the leaf phase at the end. `acc` is
the list of already-consumed segments, used to report the conflicting
name on a sentinel hit (the TrimSuffix computation in the source). -/
def registerFilePkg (file : FileDescriptor) :
    PkgTree → FullName → FullName → PkgTree × Option RegError
  | t, _, [] => registerLeaf file t
  | .mk files subs, acc, seg :: pkg =>
    match lookupName subs seg with
    | none =>
      let r := registerFilePkg file emptyPkgTree (acc ++ [seg]) pkg
      (.mk files (insertName subs seg (some r.1)), r.2)
    | some none =>
      (.mk files subs, some ⟨file.path, acc ++ [seg]⟩)
    | some (some t0) =>
      let r := registerFilePkg file t0 (acc ++ [seg]) pkg
      (.mk files (insertName subs seg (some r.1)), r.2)

/-- Registration of a single file (one iteration of the fileLoop):
placeholders are skipped; on success the file is also appended to the
path index; on failure only the (restored) trie is kept. -/
def registerFile (r : Files) (file : FileDescriptor) : Files × Option RegError :=
  if file.isPlaceholder then (r, none)
  else
    let w := registerFilePkg file r.filesByPackage [] file.pkg
    match w.2 with
    | some err => (⟨w.1, r.filesByPath⟩, some err)
    | none => (⟨w.1, insertPath r.filesByPath file.path file⟩, none)

/-- One iteration of Register's fileLoop threading the accumulated state:
register the file and keep the first error (Go only assigns firstErr when
it is still nil). -/
def registerStep (acc : Files × Option RegError) (file : FileDescriptor) :
    Files × Option RegError :=
  let s := registerFile acc.1 file
  (s.1, acc.2.orElse fun _ => s.2)

/-- Files.Register over a batch: fold the per-file registration. -/
def Register (r : Files) (files : List FileDescriptor) : Files × Option RegError :=
  files.foldl registerStep (r, none)

/-- The collision condition of the claim: walking the trie down the file's
package, either a consumed segment is marked as a top-level declaration
(the sentinel), or at the package node some declared name of the file
already exists as a declared name or sub-package segment. A fresh
(absent) segment means the rest of the walk happens in brand-new nodes,
where no collision with previous registrations is possible. -/
def conflictsWith : PkgTree → FullName → List Name → Bool
  | .mk _ subs, [], decls => decls.any fun s => (lookupName subs s).isSome
  | .mk _ subs, seg :: rest, decls =>
    match lookupName subs seg with
    | none => false
    | some none => true
    | some (some t) => conflictsWith t rest decls

/-- DescriptorByName on a single file, modelled as lookup in its byName
association list (protoreflect.FileDescriptor.DescriptorByName is an
external collaborator; descriptors are identified by numeric ids). -/
def descriptorByName : List (FullName × Nat) → FullName → Option Nat
  | [], _ => none
  | (k, v) :: rest, n => if k = n then some v else descriptorByName rest n

/-- The linear scan of Files.FindDescriptorByName over the files at the
package node (source lines 204-208): first file declaring the name wins. -/
def firstDescriptor : List FileDescriptor → FullName → Option Nat
  | [], _ => none
  | fd :: rest, name =>
    match descriptorByName fd.byName name with
    | some d => some d
    | none => firstDescriptor rest name

/-- The trie walk of FindDescriptorByName (source lines 194-213): descend
by segments; nil entry is NotFound; on the sentinel, scan the current
node's files; running out of segments is NotFound. -/
def findInTree : PkgTree → FullName → FullName → Option Nat
  | _, _, [] => none
  | .mk files subs, name, seg :: pkg =>
    match lookupName subs seg with
    | none => none
    | some none => firstDescriptor files name
    | some (some t) => findInTree t name pkg

/-- Files.FindDescriptorByName. The receiver is an Option to model the Go
nil pointer receiver (source lines 191-193); the `none` result is the
(nil, NotFound) sentinel return. -/
def FindDescriptorByName (r : Option Files) (name : FullName) : Option Nat :=
  match r with
  | none => none
  | some r => findInTree r.filesByPackage name name

/-- All files of a registry, for stating lookup-miss claims. -/
def allFiles : Option Files → List FileDescriptor
  | none => []
  | some r => allFilesTree r.filesByPackage

/-- One step of visiting a file list with a callback, with early stopping
(the `if !f(fd) \x7b return false \x7d` loop of rangeFiles). Returns the
visited files and whether iteration may continue. -/
def visitFiles (f : FileDescriptor → Bool) :
    List FileDescriptor → List FileDescriptor × Bool
  | [] => ([], true)
  | fd :: rest =>
    if f fd then
      let r := visitFiles f rest
      (fd :: r.1, r.2)
    else ([fd], false)

mutual
/-- rangeFiles on a node (source lines 242-259): visit the exact matches,
then recurse into every subtree. Returns visited files and the continue
flag. -/
def rangeFilesTree (f : FileDescriptor → Bool) : PkgTree → List FileDescriptor × Bool
  | .mk files subs =>
    let r := visitFiles f files
    if r.2 then
      let r' := rangeFilesSubs f subs
      (r.1 ++ r'.1, r'.2)
    else (r.1, false)

/-- rangeFiles over the subs map; a sentinel entry is the empty node and
contributes nothing (rangeFiles on it immediately returns true). -/
def rangeFilesSubs (f : FileDescriptor → Bool) : List (Name × Option PkgTree) →
    List FileDescriptor × Bool
  | [] => ([], true)
  | (_, none) :: rest => rangeFilesSubs f rest
  | (_, some t) :: rest =>
    let r := rangeFilesTree f t
    if r.2 then
      let r' := rangeFilesSubs f rest
      (r.1 ++ r'.1, r'.2)
    else (r.1, false)
end

/-- The descending loop of RangeFilesByPackage (source lines 234-239):
`root = root.subs[prefix]` until the package is consumed or root is nil.
A nil entry and the sentinel both behave as a node with nothing to visit,
so they are collapsed to `none` here. -/
def descend : Option PkgTree → FullName → Option PkgTree
  | root, [] => root
  | none, _ :: _ => none
  | some (.mk _ subs), seg :: rest =>
    descend (match lookupName subs seg with
      | some (some t) => some t
      | _ => none) rest

/-- Files.RangeFilesByPackage, returning the files visited by the callback.
A nil receiver visits nothing (source lines 228-230). The trailing-dot
guard of the source is not representable in the segment-list model of
FullName and is dropped. -/
def RangeFilesByPackage (r : Option Files) (pkg : FullName)
    (f : FileDescriptor → Bool) : List FileDescriptor :=
  match r with
  | none => []
  | some r =>
    match descend (some r.filesByPackage) pkg with
    | none => []
    | some t => (rangeFilesTree f t).1

/-- Files.RangeFiles delegates to RangeFilesByPackage with the empty
package (source lines 219-221). -/
def RangeFiles (r : Option Files) (f : FileDescriptor → Bool) :
    List FileDescriptor :=
  RangeFilesByPackage r [] f

/-- Files.RangeFilesByPath (source lines 263-272): a nil receiver visits
nothing; otherwise visit the path's file list with early stopping. -/
def RangeFilesByPath (r : Option Files) (path : String)
    (f : FileDescriptor → Bool) : List FileDescriptor :=
  match r with
  | none => []
  | some r => (visitFiles f ((lookupPath r.filesByPath path).getD [])).1

/-! Helper lemmas about the association-list model of Go maps. -/

theorem lookupName_append (l l' : List (Name × Option PkgTree)) (k : Name) :
    lookupName (l ++ l') k =
      ((lookupName l k).orElse fun _ => lookupName l' k) := by
  induction l with
  | nil => simp [lookupName, Option.orElse]
  | cons hd tl ih =>
    obtain ⟨k', v⟩ := hd
    by_cases h : k' = k <;> simp [lookupName, h, ih, Option.orElse]

theorem insertName_absent {l : List (Name × Option PkgTree)} {k : Name}
    (h : lookupName l k = none) (v : Option PkgTree) :
    insertName l k v = l ++ [(k, v)] := by
  induction l with
  | nil => simp [insertName]
  | cons hd tl ih =>
    obtain ⟨k', w⟩ := hd
    by_cases hk : k' = k
    · simp [lookupName, hk] at h
    · simp only [lookupName, hk, if_false] at h
      simp [insertName, hk, ih h]

theorem insertName_present_same {l : List (Name × Option PkgTree)} {k : Name}
    {v : Option PkgTree} (h : lookupName l k = some v) :
    insertName l k v = l := by
  induction l with
  | nil => simp [lookupName] at h
  | cons hd tl ih =>
    obtain ⟨k', w⟩ := hd
    by_cases hk : k' = k
    · subst hk
      simp only [lookupName, if_pos trivial, Option.some_inj] at h
      simp [insertName, h]
    · simp only [lookupName, hk, if_false] at h
      simp [insertName, hk, ih h]

theorem eraseName_append_head {l l' : List (Name × Option PkgTree)} {k : Name}
    (h : lookupName l k = none) (v : Option PkgTree) :
    eraseName (l ++ (k, v) :: l') k = l ++ l' := by
  induction l with
  | nil => simp [eraseName]
  | cons hd tl ih =>
    obtain ⟨k', w⟩ := hd
    by_cases hk : k' = k
    · simp [lookupName, hk] at h
    · simp only [lookupName, hk, if_false] at h
      simp [eraseName, hk, ih h]

theorem mem_insertSorted {a b : Name} {l : List Name} :
    a ∈ insertSorted b l ↔ a = b ∨ a ∈ l := by
  induction l with
  | nil => simp [insertSorted]
  | cons hd tl ih =>
    by_cases h : nameLe b hd = true
    · simp [insertSorted, h]
    · have hstep : insertSorted b (hd :: tl) = hd :: insertSorted b tl := by
        simp [insertSorted, h]
      rw [hstep]
      simp only [List.mem_cons, ih]
      tauto

theorem mem_sortNames {a : Name} {l : List Name} :
    a ∈ sortNames l ↔ a ∈ l := by
  induction l with
  | nil => simp [sortNames]
  | cons hd tl ih => simp [sortNames, mem_insertSorted, ih]

/-- Characterization of the declaration-insertion loop on internally
consistent files (no duplicate declared names, as validated by the
prototype package): sentinels are appended for exactly the names without
an existing entry, and the conflicts are exactly the names with one,
in declaration order. -/
theorem insertDecls_eq {decls : List Name} (subs : List (Name × Option PkgTree))
    (hnd : decls.Nodup) :
    insertDecls subs decls =
      (subs ++ (decls.filter fun s => (lookupName subs s).isNone).map
          (fun s => (s, (none : Option PkgTree))),
        decls.filter fun s => (lookupName subs s).isSome) := by
  induction decls generalizing subs with
  | nil => simp [insertDecls]
  | cons s rest ih =>
    obtain ⟨hs, hrest⟩ := List.nodup_cons.mp hnd
    have hcong : ∀ x ∈ rest,
        lookupName (subs ++ [(s, (none : Option PkgTree))]) x = lookupName subs x := by
      intro x hx
      have hxs : lookupName subs x = lookupName subs x := rfl
      rw [lookupName_append]
      cases hl : lookupName subs x with
      | some v => simp [Option.orElse]
      | none =>
        have : x ≠ s := fun hxeq => hs (hxeq ▸ hx)
        simp [Option.orElse, lookupName, this.symm]
    cases hl : lookupName subs s with
    | none =>
      simp only [insertDecls, hl, insertName_absent hl]
      rw [ih _ hrest]
      have hf1 : (rest.filter fun x =>
          (lookupName (subs ++ [(s, (none : Option PkgTree))]) x).isNone) =
          rest.filter fun x => (lookupName subs x).isNone :=
        List.filter_congr fun x hx => by rw [hcong x hx]
      have hf2 : (rest.filter fun x =>
          (lookupName (subs ++ [(s, (none : Option PkgTree))]) x).isSome) =
          rest.filter fun x => (lookupName subs x).isSome :=
        List.filter_congr fun x hx => by rw [hcong x hx]
      simp [hf1, hf2, hl, List.filter_cons]
    | some v =>
      simp only [insertDecls, hl]
      rw [ih _ hrest]
      simp [hl, List.filter_cons]

/-- The cleanup loop undoes exactly the sentinel insertions of the failed
file: deleting, in declaration order, every declared name that is not a
conflict (i.e. whose entry was freshly inserted) restores the original
subs map. -/
theorem cleanupDecls_restore {decls : List Name} {sorted : List Name}
    (subs : List (Name × Option PkgTree))
    (hnd : decls.Nodup)
    (hs : ∀ s ∈ decls, sorted.contains s = (lookupName subs s).isSome) :
    cleanupDecls sorted
      (subs ++ (decls.filter fun s => (lookupName subs s).isNone).map
        (fun s => (s, (none : Option PkgTree)))) decls = subs := by
  induction decls generalizing subs with
  | nil => simp [cleanupDecls]
  | cons s rest ih =>
    obtain ⟨hsr, hrest⟩ := List.nodup_cons.mp hnd
    have hcontains := hs s (List.mem_cons_self s rest)
    cases hl : lookupName subs s with
    | some v =>
      have hc : sorted.contains s = true := by rw [hcontains, hl]; rfl
      have hfilter : ((s :: rest).filter fun x => (lookupName subs x).isNone) =
          rest.filter fun x => (lookupName subs x).isNone := by
        simp [List.filter_cons, hl]
      rw [hfilter]
      show cleanupDecls sorted _ (s :: rest) = subs
      rw [cleanupDecls, if_pos hc]
      exact ih subs hrest fun x hx => hs x (List.mem_cons_of_mem s hx)
    | none =>
      have hc : sorted.contains s = false := by rw [hcontains, hl]; rfl
      have hfilter : ((s :: rest).filter fun x => (lookupName subs x).isNone) =
          s :: rest.filter fun x => (lookupName subs x).isNone := by
        simp [List.filter_cons, hl]
      rw [hfilter]
      show cleanupDecls sorted _ (s :: rest) = subs
      rw [cleanupDecls, if_neg (by rw [hc]; exact Bool.false_ne_true)]
      have herase : eraseName
          (subs ++ (s, (none : Option PkgTree)) ::
            (rest.filter fun x => (lookupName subs x).isNone).map
              (fun x => (x, (none : Option PkgTree)))) s =
          subs ++ (rest.filter fun x => (lookupName subs x).isNone).map
            (fun x => (x, (none : Option PkgTree))) :=
        eraseName_append_head hl none
      rw [List.map_cons, herase]
      exact ih subs hrest fun x hx => hs x (List.mem_cons_of_mem s hx)

/-- The leaf phase reports a conflict exactly when some declared name of
the file already has an entry (declared name or sub-package) at the node. -/
theorem registerLeaf_err (file : FileDescriptor) (files : List FileDescriptor)
    (subs : List (Name × Option PkgTree)) (hnd : file.decls.Nodup) :
    (registerLeaf file (.mk files subs)).2.isSome =
      file.decls.any fun s => (lookupName subs s).isSome := by
  rw [registerLeaf, insertDecls_eq subs hnd]
  cases hc : file.decls.filter fun s => (lookupName subs s).isSome with
  | nil =>
    have hany : (file.decls.any fun s => (lookupName subs s).isSome) = false := by
      rw [Bool.eq_false_iff, Ne, List.any_eq_true]
      rintro ⟨s, hsmem, hssome⟩
      have hmem : s ∈ (List.filter (fun s => (lookupName subs s).isSome) file.decls) :=
        List.mem_filter.mpr ⟨hsmem, hssome⟩
      rw [hc] at hmem
      exact absurd hmem (List.not_mem_nil s)
    simp [hany]
  | cons c cs =>
    have hmem : c ∈ (List.filter (fun s => (lookupName subs s).isSome) file.decls) := by
      rw [hc]; exact List.mem_cons_self c cs
    obtain ⟨hmem', hsome⟩ := List.mem_filter.mp hmem
    have hany : (file.decls.any fun s => (lookupName subs s).isSome) = true :=
      List.any_eq_true.mpr ⟨c, hmem', hsome⟩
    simp [hany]

/-- On a conflict, the leaf phase leaves the node exactly as it was:
the freshly inserted sentinels are removed and the file is not appended. -/
theorem registerLeaf_state_of_err (file : FileDescriptor)
    (files : List FileDescriptor) (subs : List (Name × Option PkgTree))
    (hnd : file.decls.Nodup)
    (herr : (registerLeaf file (.mk files subs)).2.isSome = true) :
    (registerLeaf file (.mk files subs)).1 = .mk files subs := by
  have herr' := herr
  rw [registerLeaf_err file files subs hnd, List.any_eq_true] at herr'
  rw [registerLeaf, insertDecls_eq subs hnd]
  cases hc : file.decls.filter fun s => (lookupName subs s).isSome with
  | nil =>
    obtain ⟨s, hsmem, hssome⟩ := herr'
    have : s ∈ (List.filter (fun s => (lookupName subs s).isSome) file.decls) :=
      List.mem_filter.mpr ⟨hsmem, hssome⟩
    rw [hc] at this
    exact absurd this (List.not_mem_nil s)
  | cons c cs =>
    dsimp only
    simp only [PkgTree.mk.injEq]
    refine ⟨trivial, ?_⟩
    apply cleanupDecls_restore subs hnd
    intro s hsmem
    cases hl : lookupName subs s with
    | some v =>
      have hin : s ∈ sortNames (c :: cs) := by
        rw [mem_sortNames, ← hc]
        exact List.mem_filter.mpr ⟨hsmem, by rw [hl]; rfl⟩
      simp [hin]
    | none =>
      have hout : s ∉ sortNames (c :: cs) := by
        rw [mem_sortNames, ← hc]
        intro hmem
        have hsm := (List.mem_filter.mp hmem).2
        rw [hl] at hsm
        exact absurd hsm (by simp)
      simp [hout]

/-- Walking into freshly created nodes can never produce a conflict for an
internally consistent file: every lookup along the way, and every declared
name at the fresh leaf, meets an empty subs map. -/
theorem registerFilePkg_empty (file : FileDescriptor) (hnd : file.decls.Nodup) :
    ∀ (pkg acc : FullName),
      (registerFilePkg file emptyPkgTree acc pkg).2 = none := by
  intro pkg
  induction pkg with
  | nil =>
    intro acc
    show (registerLeaf file (.mk [] [])).2 = none
    rw [registerLeaf, insertDecls_eq [] hnd]
    have : (List.filter (fun s => (lookupName [] s).isSome) file.decls) = [] := by
      apply List.filter_eq_nil_iff.mpr
      intro s _
      simp [lookupName]
    rw [this]
  | cons seg rest ih =>
    intro acc
    show (registerFilePkg file (.mk [] []) acc (seg :: rest)).2 = none
    rw [registerFilePkg]
    simp only [lookupName]
    exact ih (acc ++ [seg])

/-- The package walk errors exactly on the collision condition, and on an
error it leaves the trie exactly as it was (for an internally consistent
file). -/
theorem registerFilePkg_err (file : FileDescriptor) (hnd : file.decls.Nodup) :
    ∀ (pkg : FullName) (t : PkgTree) (acc : FullName),
      (registerFilePkg file t acc pkg).2.isSome = conflictsWith t pkg file.decls ∧
      ((registerFilePkg file t acc pkg).2.isSome = true →
        (registerFilePkg file t acc pkg).1 = t) := by
  intro pkg
  induction pkg with
  | nil =>
    rintro ⟨files, subs⟩ acc
    constructor
    · exact registerLeaf_err file files subs hnd
    · exact registerLeaf_state_of_err file files subs hnd
  | cons seg rest ih =>
    rintro ⟨files, subs⟩ acc
    rw [registerFilePkg, conflictsWith]
    cases hl : lookupName subs seg with
    | none =>
      dsimp only
      rw [registerFilePkg_empty file hnd rest (acc ++ [seg])]
      exact ⟨rfl, by intro h; simp at h⟩
    | some o =>
      cases o with
      | none => exact ⟨rfl, fun _ => rfl⟩
      | some t0 =>
        dsimp only
        obtain ⟨ih1, ih2⟩ := ih t0 (acc ++ [seg])
        refine ⟨ih1, fun h => ?_⟩
        rw [ih2 h, insertName_present_same hl]

/-- Per-file registration that fails leaves the whole registry (trie and
path index) unchanged, for an internally consistent file. -/
theorem registerFile_err_state {r : Files} {file : FileDescriptor}
    (hnd : file.decls.Nodup) {e : RegError}
    (he : (registerFile r file).2 = some e) :
    (registerFile r file).1 = r := by
  rw [registerFile] at he ⊢
  by_cases hpl : file.isPlaceholder
  · rw [if_pos hpl] at he
    exact absurd he (by simp)
  · rw [if_neg hpl] at he ⊢
    obtain ⟨h1, h2⟩ := registerFilePkg_err file hnd file.pkg r.filesByPackage []
    cases hw : (registerFilePkg file r.filesByPackage [] file.pkg).2 with
    | none => simp only [hw] at he; exact absurd he (by simp)
    | some err =>
      simp only [hw]
      have hstate := h2 (by rw [hw]; rfl)
      rw [hstate]

/-- For a non-placeholder file, the error of registerFile is the error of
the package walk. -/
theorem registerFile_err_eq {r : Files} {file : FileDescriptor}
    (hpl : file.isPlaceholder = false) :
    (registerFile r file).2 = (registerFilePkg file r.filesByPackage [] file.pkg).2 := by
  rw [registerFile, if_neg (by rw [hpl]; exact Bool.false_ne_true)]
  cases hw : (registerFilePkg file r.filesByPackage [] file.pkg).2 with
  | none => simp [hw]
  | some err => simp [hw]

/-- C1: Register is atomic per file. For every registry state and every
internally consistent, non-placeholder file whose top-level declarations
collide with an existing declared name or sub-package segment (the
conflictsWith condition), registerFile rejects the file (returns an
error) and leaves the registry — the package trie and the path index —
exactly as it was: no node, declared-name sentinel, or file entry added
on behalf of the rejected file survives. -/
theorem register_conflicting_file_atomic (r : Files) (file : FileDescriptor)
    (hnd : file.decls.Nodup) (hpl : file.isPlaceholder = false)
    (hc : conflictsWith r.filesByPackage file.pkg file.decls = true) :
    (registerFile r file).2.isSome = true ∧ (registerFile r file).1 = r := by
  obtain ⟨h1, _⟩ := registerFilePkg_err file hnd file.pkg r.filesByPackage []
  have herr : (registerFile r file).2.isSome = true := by
    rw [registerFile_err_eq hpl, h1, hc]
  refine ⟨herr, ?_⟩
  cases he : (registerFile r file).2 with
  | none => rw [he] at herr; exact absurd herr (by simp)
  | some e => exact registerFile_err_state hnd he

/-- Concrete registry for the witnesses: one registered file declaring
package p with names M, E. -/
def wFile1 : FileDescriptor :=
  ⟨"f1.proto", ["p"], ["M", "E"], [(["p", "M"], 1)], false⟩

/-- A file whose declaration M collides with wFile1's M. -/
def wFile3 : FileDescriptor :=
  ⟨"f3.proto", ["p"], ["A", "M"], [(["p", "M"], 3)], false⟩

/-- A non-conflicting file in the same package. -/
def wFile2 : FileDescriptor :=
  ⟨"f2.proto", ["p"], ["N"], [(["p", "N"], 2)], false⟩

/-- The registry holding exactly wFile1. -/
def wReg1 : Files := (Register emptyFiles [wFile1]).1

theorem register_conflicting_file_atomic_witness :
    (registerFile wReg1 wFile3).2.isSome = true ∧
      (registerFile wReg1 wFile3).1 = wReg1 :=
  register_conflicting_file_atomic wReg1 wFile3 (by decide) (by rfl) (by rfl)

theorem orElse_none_right (x : Option RegError) :
    (x.orElse fun _ => none) = x := by cases x <;> rfl

theorem orElse_assoc (x y z : Option RegError) :
    ((x.orElse fun _ => y).orElse fun _ => z) =
      x.orElse fun _ => y.orElse fun _ => z := by cases x <;> rfl

/-- The state component of the registration fold does not depend on the
accumulated error, and the error component keeps the first error. -/
theorem foldl_registerStep (l : List FileDescriptor) :
    ∀ (r : Files) (e0 : Option RegError),
      List.foldl registerStep (r, e0) l =
        ((Register r l).1, e0.orElse fun _ => (Register r l).2) := by
  induction l with
  | nil =>
    intro r e0
    simp [Register, List.foldl_nil, orElse_none_right]
  | cons a l' ih =>
    intro r e0
    rw [List.foldl_cons]
    show List.foldl registerStep
        ((registerFile r a).1, e0.orElse fun _ => (registerFile r a).2) l' = _
    rw [ih]
    have hR : Register r (a :: l') =
        ((Register (registerFile r a).1 l').1,
          ((registerFile r a).2).orElse fun _ => (Register (registerFile r a).1 l').2) := by
      show List.foldl registerStep (registerStep (r, none) a) l' = _
      show List.foldl registerStep
        ((registerFile r a).1, (none : Option RegError).orElse fun _ => (registerFile r a).2) l' = _
      rw [ih]
      rfl
    rw [hR, orElse_assoc]

/-- Registering a concatenation: states compose, errors keep the first. -/
theorem Register_append (r : Files) (l1 l2 : List FileDescriptor) :
    Register r (l1 ++ l2) =
      ((Register (Register r l1).1 l2).1,
        (Register r l1).2.orElse fun _ => (Register (Register r l1).1 l2).2) := by
  rw [Register, List.foldl_append]
  show List.foldl registerStep ((Register r l1).1, (Register r l1).2) l2 = _
  rw [foldl_registerStep]

/-- C6: in one Register call over a batch, the first encountered conflict
is the error returned, and a conflicting file does not prevent subsequent
non-conflicting files in the same call from registering: the final state
is exactly the state obtained by registering the remaining files without
the conflicting one, so every file accepted later is findable afterwards. -/
theorem register_first_conflict_reported (r : Files)
    (l1 l2 : List FileDescriptor) (f : FileDescriptor) (e : RegError)
    (hnd : f.decls.Nodup)
    (h1 : (Register r l1).2 = none)
    (hf : (registerFile (Register r l1).1 f).2 = some e) :
    Register r (l1 ++ f :: l2) =
      ((Register (Register r l1).1 l2).1, some e) := by
  rw [Register_append, h1]
  have hcons : Register (Register r l1).1 (f :: l2) =
      ((Register (Register r l1).1 l2).1, some e) := by
    show List.foldl registerStep (registerStep ((Register r l1).1, none) f) l2 = _
    have hstep : registerStep ((Register r l1).1, none) f =
        ((Register r l1).1, some e) := by
      show ((registerFile (Register r l1).1 f).1,
        (none : Option RegError).orElse fun _ => (registerFile (Register r l1).1 f).2) = _
      rw [registerFile_err_state hnd hf, hf]
      rfl
    rw [hstep, foldl_registerStep]
    rfl
  rw [hcons]
  rfl

theorem register_first_conflict_reported_witness :
    Register emptyFiles ([wFile1] ++ wFile3 :: [wFile2]) =
      ((Register (Register emptyFiles [wFile1]).1 [wFile2]).1,
        some ⟨"f3.proto", ["p", "M"]⟩) :=
  register_first_conflict_reported emptyFiles [wFile1] [wFile2] wFile3
    ⟨"f3.proto", ["p", "M"]⟩ (by decide) (by rfl) (by rfl)

theorem firstDescriptor_none {files : List FileDescriptor} {name : FullName}
    (h : ∀ fd ∈ files, descriptorByName fd.byName name = none) :
    firstDescriptor files name = none := by
  induction files with
  | nil => rfl
  | cons fd rest ih =>
    rw [firstDescriptor, h fd (List.mem_cons_self fd rest)]
    exact ih fun x hx => h x (List.mem_cons_of_mem fd hx)

theorem files_subset_allFilesTree (files : List FileDescriptor)
    (subs : List (Name × Option PkgTree)) :
    ∀ fd ∈ files, fd ∈ allFilesTree (.mk files subs) := by
  intro fd hfd
  rw [allFilesTree]
  exact List.mem_append_left _ hfd

theorem subtree_subset_allFilesSubs {subs : List (Name × Option PkgTree)}
    {seg : Name} {t : PkgTree} (hl : lookupName subs seg = some (some t)) :
    ∀ fd ∈ allFilesTree t, fd ∈ allFilesSubs subs := by
  induction subs with
  | nil => simp [lookupName] at hl
  | cons hd rest ih =>
    obtain ⟨k, v⟩ := hd
    intro fd hfd
    by_cases hk : k = seg
    · rw [lookupName, if_pos hk] at hl
      obtain rfl : v = some t := Option.some_inj.mp hl
      rw [allFilesSubs]
      exact List.mem_append_left _ hfd
    · rw [lookupName, if_neg hk] at hl
      cases v with
      | none => rw [allFilesSubs]; exact ih hl fd hfd
      | some t' =>
        rw [allFilesSubs]
        exact List.mem_append_right _ (ih hl fd hfd)

theorem subtree_subset_allFilesTree {files : List FileDescriptor}
    {subs : List (Name × Option PkgTree)} {seg : Name} {t : PkgTree}
    (hl : lookupName subs seg = some (some t)) :
    ∀ fd ∈ allFilesTree t, fd ∈ allFilesTree (.mk files subs) := by
  intro fd hfd
  rw [allFilesTree]
  exact List.mem_append_right _ (subtree_subset_allFilesSubs hl fd hfd)

theorem findInTree_none {name : FullName} :
    ∀ (pkg : FullName) (t : PkgTree),
      (∀ fd ∈ allFilesTree t, descriptorByName fd.byName name = none) →
      findInTree t name pkg = none := by
  intro pkg
  induction pkg with
  | nil => intro t _; cases t; rfl
  | cons seg rest ih =>
    rintro ⟨files, subs⟩ h
    rw [findInTree]
    cases hl : lookupName subs seg with
    | none => rfl
    | some o =>
      cases o with
      | none =>
        exact firstDescriptor_none fun fd hfd =>
          h fd (files_subset_allFilesTree files subs fd hfd)
      | some t0 =>
        exact ih t0 fun fd hfd => h fd (subtree_subset_allFilesTree hl fd hfd)

/-- C7: FindDescriptorByName applied to a full name that no registered
file declares returns the NotFound sentinel (modelled as none, i.e. the
Go (nil, NotFound) return) for every registry state — including the nil
registry — and every input name. Being a total Lean function, it never
panics. -/
theorem findDescriptorByName_unregistered (r : Option Files) (name : FullName)
    (h : ∀ fd ∈ allFiles r, descriptorByName fd.byName name = none) :
    FindDescriptorByName r name = none := by
  cases r with
  | none => rfl
  | some r => exact findInTree_none name r.filesByPackage (h ·)

theorem findDescriptorByName_unregistered_witness :
    FindDescriptorByName (some (Register emptyFiles [wFile1, wFile2]).1)
      ["p", "Q"] = none :=
  findDescriptorByName_unregistered
    (some (Register emptyFiles [wFile1, wFile2]).1) ["p", "Q"] (by decide)

/-- C10: all lookup operations on a nil Files registry pointer are total
and panic-free: FindDescriptorByName on a nil registry returns the
NotFound sentinel, and RangeFiles, RangeFilesByPackage, and
RangeFilesByPath on a nil registry invoke their callback zero times
(they visit no file at all). -/
theorem nil_registry_lookups_total (name pkg : FullName) (path : String)
    (f g h : FileDescriptor → Bool) :
    FindDescriptorByName none name = none ∧
    RangeFiles none f = [] ∧
    RangeFilesByPackage none pkg g = [] ∧
    RangeFilesByPath none path h = [] :=
  ⟨rfl, rfl, rfl, rfl⟩

end Protoregistry

/-!
The message reflection engine (package impl, file message.go), together
with the field-offset primitive of the purego pointer file. Go's reflect
types are modelled by the small inductive GoType below; reflect calls
that panic are modelled with `Except String`, where `Except.error` is a
Go panic.
-/

namespace Impl

/-- Value models the protoreflect.Value tagged union; `zero` is the zero
Value (Go `pref.Value` with no value set), returned by Get for unknown
field numbers. -/
inductive Value : Type where
  | zero
  | boolV (b : Bool)
  | intV (n : Int)
  | strV (s : String)
deriving DecidableEq, Repr

/-- Field kinds, restricted to the ones the classification switch
distinguishes (message and group versus everything else). -/
inductive FieldKind : Type where
  | boolK
  | int32K
  | stringK
  | messageK
  | groupK
deriving DecidableEq, Repr

/-- Cardinality of a field descriptor. -/
inductive Cardinality : Type where
  | optionalC
  | requiredC
  | repeatedC
deriving DecidableEq, Repr

/-- FieldDescriptor models the classification-relevant surface of a
protoreflect.FieldDescriptor: Number, Kind, Cardinality, IsMap, IsWeak,
the owning oneof's name (OneofType, none when not in a oneof), and the
declared default. -/
structure FieldDescriptor : Type where
  number : Nat
  kind : FieldKind
  cardinality : Cardinality
  isMapField : Bool
  isWeak : Bool
  oneofName : Option String
  defaultV : Value
deriving DecidableEq, Repr

/-- MessageDescriptor: the ordered field descriptors. -/
structure MessageDescriptor : Type where
  fields : List FieldDescriptor
deriving DecidableEq, Repr

/-- StructField models the parts of reflect.StructField the engine reads:
the field name, the comma-split components of the struct tag
`protobuf:"..."`, the struct tag `protobuf_oneof:"..."` (empty when
absent), and the Index slice. The zero StructField (missing map entry)
has an empty Index. -/
structure StructField : Type where
  name : String
  protobufTag : List String
  protobufOneofTag : String
  index : List Nat
deriving DecidableEq, Repr, Inhabited

/-- GoType models the reflect.Type values the engine distinguishes: a
pointer, a slice, a struct (with its fields and, standing in for the
XXX_OneofFuncs method set, the first fields of the oneof wrapper types),
and a non-composite kind. -/
inductive GoType : Type where
  | ptr (elem : GoType)
  | slice (elem : GoType)
  | structT (sfields : List StructField) (oneofWrappers : List StructField)
  | intT
deriving DecidableEq, Repr

/-- Go reflect kinds of the modelled types. -/
inductive GoKind : Type where
  | ptrK
  | sliceK
  | structK
  | intK
deriving DecidableEq, Repr

/-- reflect.Type.Kind. -/
def GoType.kind : GoType → GoKind
  | .ptr _ => .ptrK
  | .slice _ => .sliceK
  | .structT _ _ => .structK
  | .intT => .intK

/-- reflect.Type.Elem: defined for pointer and slice kinds, a reflect
panic otherwise. -/
def GoType.elem : GoType → Except String GoType
  | .ptr e => .ok e
  | .slice e => .ok e
  | _ => .error "reflect: Elem of invalid type"

/-- The record-type validation at the start of MessageType.init (source
lines 47-49), with Go's short-circuit evaluation of the condition
`t.Kind() != reflect.Ptr && t.Elem().Kind() != reflect.Struct`: when the
first conjunct is false, Elem is never evaluated; when it is true, Elem
may itself panic inside reflect. -/
def checkRecordType (t : GoType) : Except String Unit :=
  if t.kind ≠ .ptrK then
    match t.elem with
    | .error e => .error e
    | .ok e =>
      if e.kind ≠ .structK then .error "got type, want *struct kind"
      else .ok ()
  else .ok ()

/-- The numeric-component test of the tag loop: Go
`len(s) > 0 && strings.Trim(s, "0123456789") == ""`. -/
def isDecimal (s : String) : Bool := !s.data.isEmpty && s.data.all (·.isDigit)

/-- Decimal digit accumulation of strconv.ParseUint over the character
list of an all-digits component (the uint64 range cap is not modelled
since field numbers are small). -/
def parseDecimal (s : String) : Nat :=
  s.data.foldl (fun n c => n * 10 + (c.val.toNat - 48)) 0

/-- Scan the comma-split tag components for the first all-digits one and
parse it (Go strconv.ParseUint with the error ignored). -/
def parseFieldNumberTag : List String → Option Nat
  | [] => none
  | s :: rest => if isDecimal s then some (parseDecimal s) else parseFieldNumberTag rest

/-- The three maps built by the fieldLoop of generateFieldFuncs (source
lines 97-120): tagged fields by number, oneof wrapper slots by oneof
name, and the special XXX_ fields by name. -/
structure CollectedFields : Type where
  fields : List (Nat × StructField)
  oneofs : List (String × StructField)
  special : List (String × StructField)
deriving Repr

/-- Go map assignment for Nat keys. -/
def insertNat (l : List (Nat × StructField)) (k : Nat) (v : StructField) :
    List (Nat × StructField) :=
  match l with
  | [] => [(k, v)]
  | (k', w) :: rest =>
    if k' = k then (k', v) :: rest else (k', w) :: insertNat rest k v

/-- Go map lookup for Nat keys. -/
def lookupNat : List (Nat × StructField) → Nat → Option StructField
  | [], _ => none
  | (k', v) :: rest, k => if k' = k then some v else lookupNat rest k

/-- Go map assignment for String keys. -/
def insertStr (l : List (String × StructField)) (k : String) (v : StructField) :
    List (String × StructField) :=
  match l with
  | [] => [(k, v)]
  | (k', w) :: rest =>
    if k' = k then (k', v) :: rest else (k', w) :: insertStr rest k v

/-- Go map lookup for String keys. -/
def lookupStr : List (String × StructField) → String → Option StructField
  | [], _ => none
  | (k', v) :: rest, k => if k' = k then some v else lookupStr rest k

/-- The special reserved field names of the fieldLoop. -/
def specialNames : List String :=
  ["XXX_weak", "XXX_unrecognized", "XXX_sizecache", "XXX_extensions",
    "XXX_InternalExtensions"]

/-- The fieldLoop of generateFieldFuncs (source lines 101-120): for each
struct field, a numeric protobuf tag component assigns it to its field
number; otherwise a protobuf_oneof tag assigns it to its oneof name;
otherwise a special XXX_ name records it; anything else is skipped. -/
def collectStructFields (sfs : List StructField) : CollectedFields :=
  sfs.foldl
    (fun c f =>
      match parseFieldNumberTag f.protobufTag with
      | some n => { c with fields := insertNat c.fields n f }
      | none =>
        if f.protobufOneofTag ≠ "" then
          { c with oneofs := insertStr c.oneofs f.protobufOneofTag f }
        else if specialNames.contains f.name then
          { c with special := insertStr c.special f.name f }
        else c)
    ⟨[], [], []⟩

/-- The oneofLoop of generateFieldFuncs (source lines 121-135): each
oneof wrapper type's first field carries a numeric protobuf tag mapping
the field number to the wrapper. An absent XXX_OneofFuncs method is
modelled by the empty wrapper list. -/
def collectOneofWrappers (ws : List StructField) : List (Nat × StructField) :=
  ws.foldl
    (fun m f =>
      match parseFieldNumberTag f.protobufTag with
      | some n => insertNat m n f
      | none => m)
    []

/-- offsetOf from the purego pointer file (part_001 lines 19-24): a field
offset is the one-element Index of a direct struct field; an Index of any
other length — in particular the empty Index of the zero StructField that
results when a field's storage sits behind an embedded struct — is the
panic "embedded structs are not supported". -/
def offsetOf (f : StructField) : Except String (List Nat) :=
  if f.index.length ≠ 1 then .error "embedded structs are not supported"
  else .ok f.index

/-- FieldInfoTag records which fieldInfo variant the classification
switch selected and the storage StructField it was bound to. The
capability closures built by the fieldInfoFor* constructors are not under
src/, so the dispatch table stores these tags. -/
inductive FieldInfoTag : Type where
  | weakT (fs : StructField)
  | oneofT (ofs : StructField) (wrapper : StructField)
  | mapT (fs : StructField)
  | vectorT (fs : StructField)
  | messageT (fs : StructField)
  | scalarT (fs : StructField)
deriving DecidableEq, Repr

/-- Modelled from the spec: fieldInfoForWeak is not under src/; weak
fields are an explicit not-implemented stub (spec section 4.2), so the
constructor records the XXX_weak slot without binding an offset. -/
def fieldInfoForWeak (_fd : FieldDescriptor) (fs : StructField) :
    Except String FieldInfoTag :=
  .ok (.weakT fs)

/-- Modelled from the spec: fieldInfoForOneof is not under src/; per the
field-locator contract (spec sections 4.2 and 4.4) the constructor binds
the oneof wrapper slot of the record shape, deriving its offset with
offsetOf, which fails fast on a slot that is not a direct struct field. -/
def fieldInfoForOneof (_fd : FieldDescriptor) (ofs : StructField)
    (wrapper : StructField) : Except String FieldInfoTag :=
  match offsetOf ofs with
  | .error e => .error e
  | .ok _ => .ok (.oneofT ofs wrapper)

/-- Modelled from the spec: fieldInfoForMap is not under src/; the
constructor binds the field's storage slot via offsetOf. -/
def fieldInfoForMap (_fd : FieldDescriptor) (fs : StructField) :
    Except String FieldInfoTag :=
  match offsetOf fs with
  | .error e => .error e
  | .ok _ => .ok (.mapT fs)

/-- Modelled from the spec: fieldInfoForVector is not under src/; the
constructor binds the field's storage slot via offsetOf. -/
def fieldInfoForVector (_fd : FieldDescriptor) (fs : StructField) :
    Except String FieldInfoTag :=
  match offsetOf fs with
  | .error e => .error e
  | .ok _ => .ok (.vectorT fs)

/-- Modelled from the spec: fieldInfoForMessage is not under src/; the
constructor binds the field's storage slot via offsetOf. -/
def fieldInfoForMessage (_fd : FieldDescriptor) (fs : StructField) :
    Except String FieldInfoTag :=
  match offsetOf fs with
  | .error e => .error e
  | .ok _ => .ok (.messageT fs)

/-- Modelled from the spec: fieldInfoForScalar is not under src/; the
constructor binds the field's storage slot via offsetOf. -/
def fieldInfoForScalar (_fd : FieldDescriptor) (fs : StructField) :
    Except String FieldInfoTag :=
  match offsetOf fs with
  | .error e => .error e
  | .ok _ => .ok (.scalarT fs)

/-- The classification loop of generateFieldFuncs (source lines 137-157):
for each field descriptor, look up its storage StructField (the Go zero
value when missing) and dispatch on the declared flags in the source's
switch order: IsWeak, OneofType, IsMap, repeated Cardinality,
message/group Kind, otherwise scalar. -/
def buildFieldInfos : List FieldDescriptor → CollectedFields →
    List (Nat × StructField) → Except String (List (Nat × FieldInfoTag))
  | [], _, _ => .ok []
  | fd :: rest, c, ofw =>
    let fs := (lookupNat c.fields fd.number).getD default
    let fi : Except String FieldInfoTag :=
      if fd.isWeak then
        fieldInfoForWeak fd ((lookupStr c.special "XXX_weak").getD default)
      else
        match fd.oneofName with
        | some onName =>
          fieldInfoForOneof fd ((lookupStr c.oneofs onName).getD default)
            ((lookupNat ofw fd.number).getD default)
        | none =>
          if fd.isMapField then fieldInfoForMap fd fs
          else if fd.cardinality = .repeatedC then fieldInfoForVector fd fs
          else if fd.kind = .messageK ∨ fd.kind = .groupK then
            fieldInfoForMessage fd fs
          else fieldInfoForScalar fd fs
    match fi with
    | .error e => .error e
    | .ok fi =>
      match buildFieldInfos rest c ofw with
      | .error e => .error e
      | .ok tl => .ok ((fd.number, fi) :: tl)

/-- generateFieldFuncs (source lines 95-158): requires a struct type (Go
NumField panics otherwise), collects the tagged fields, oneof slots,
special fields and oneof wrappers, and classifies every descriptor field. -/
def generateFieldFuncs (t : GoType) (md : MessageDescriptor) :
    Except String (List (Nat × FieldInfoTag)) :=
  match t with
  | .structT sfs ws =>
    buildFieldInfos md.fields (collectStructFields sfs) (collectOneofWrappers ws)
  | _ => .error "reflect: NumField of non-struct type"

/-- GoValue models the interface value p passed to init: its dynamic
reflect type and whether it implements the proto.Message interface. -/
structure GoValue : Type where
  ty : GoType
  isProtoMessage : Bool
deriving DecidableEq, Repr

/-- MessageType: the optionally provided descriptor, the sync.Once state
(`onceDone`), and the unexported fields built by the once body — goType,
the pbType wrapper flag, and the fieldNumber-to-FieldInfo dispatch table. -/
structure MessageType : Type where
  Desc : MessageDescriptor
  onceDone : Bool
  goType : Option GoType
  pbTypeBuilt : Bool
  fields : List (Nat × FieldInfoTag)
deriving DecidableEq, Repr

/-- A fresh MessageType for a descriptor: once not fired, nothing built. -/
def newMessageType (md : MessageDescriptor) : MessageType :=
  ⟨md, false, none, false, []⟩

/-- MessageType.init (source lines 43-86): on the first call (the
sync.Once body) validate the record type, build the pbType wrapper when
the value does not implement proto.Message, and generate the dispatch
table from t.Elem(); on every call — first or not — check that the
record's dynamic type equals the bound goType and panic on mismatch.
Panics are Except.error; the ok result is the (possibly updated)
MessageType state. -/
def MessageType.init (mi : MessageType) (p : GoValue) : Except String MessageType :=
  let once : Except String MessageType :=
    if mi.onceDone then .ok mi
    else
      match checkRecordType p.ty with
      | .error e => .error e
      | .ok _ =>
        match p.ty.elem with
        | .error e => .error e
        | .ok elemT =>
          match generateFieldFuncs elemT mi.Desc with
          | .error e => .error e
          | .ok fs =>
            .ok { mi with onceDone := true, goType := some p.ty,
                          pbTypeBuilt := !p.isProtoMessage, fields := fs }
  match once with
  | .error e => .error e
  | .ok mi' =>
    if some p.ty ≠ mi'.goType then .error "type mismatch"
    else .ok mi'

/-- FieldInfoFuncs is the capability record of one compiled fieldInfo as
the knownFields facade uses it: has/get/set/clear/mutable closures over
the record state σ. The closures themselves are built by the
fieldInfoFor* constructors, which are not under src/; the facade only
invokes them. Go mutation through the record pointer is state passing;
`mutableF` abstracts the returned pref.Mutable handle as a Nat. -/
structure FieldInfoFuncs (σ : Type) : Type where
  has : σ → Bool
  get : σ → Value
  set : σ → Value → σ
  clear : σ → σ
  mutableF : σ → Nat

/-- Lookup in the dispatch table of capability records (the Go map access
`fs.mi.fields[n]`, nil when absent). -/
def lookupFI {σ : Type} : List (Nat × FieldInfoFuncs σ) → Nat →
    Option (FieldInfoFuncs σ)
  | [], _ => none
  | (k, v) :: rest, n => if k = n then some v else lookupFI rest n

/-- KnownFields models the knownFields view: the record state p and the
binder's dispatch table. -/
structure KnownFields (σ : Type) : Type where
  p : σ
  fields : List (Nat × FieldInfoFuncs σ)

/-- knownFields.Len (source lines 231-239): count the present fields. -/
def KnownFields.Len {σ : Type} (fs : KnownFields σ) : Nat :=
  (fs.fields.filter fun e => e.2.has fs.p).length

/-- knownFields.Has (source lines 240-246): false for an unknown number. -/
def KnownFields.Has {σ : Type} (fs : KnownFields σ) (n : Nat) : Bool :=
  match lookupFI fs.fields n with
  | some fi => fi.has fs.p
  | none => false

/-- knownFields.Get (source lines 247-253): the zero Value for an unknown
number. -/
def KnownFields.Get {σ : Type} (fs : KnownFields σ) (n : Nat) : Value :=
  match lookupFI fs.fields n with
  | some fi => fi.get fs.p
  | none => Value.zero

/-- knownFields.Set (source lines 254-261): delegate for a known number,
panic ("invalid field") for an unknown one. -/
def KnownFields.Set {σ : Type} (fs : KnownFields σ) (n : Nat) (v : Value) :
    Except String σ :=
  match lookupFI fs.fields n with
  | some fi => .ok (fi.set fs.p v)
  | none => .error ("invalid field: " ++ toString n)

/-- knownFields.Clear (source lines 262-269): delegate or panic. -/
def KnownFields.Clear {σ : Type} (fs : KnownFields σ) (n : Nat) :
    Except String σ :=
  match lookupFI fs.fields n with
  | some fi => .ok (fi.clear fs.p)
  | none => .error ("invalid field: " ++ toString n)

/-- knownFields.Mutable (source lines 270-276): delegate or panic. -/
def KnownFields.Mutable {σ : Type} (fs : KnownFields σ) (n : Nat) :
    Except String Nat :=
  match lookupFI fs.fields n with
  | some fi => .ok (fi.mutableF fs.p)
  | none => .error ("invalid field: " ++ toString n)

/-- Modelled from the spec: the capability closures of fieldInfoForScalar
are not under src/. Per spec section 4.2, a scalar optional field with
declared default d stores an explicit-presence slot (modelled as
Option Value): has is presence, get returns the stored value or the
default d when absent, set stores the exact value, clear resets to
absent. -/
def scalarFieldFuncs (d : Value) : FieldInfoFuncs (Option Value) where
  has := fun s => s.isSome
  get := fun s => s.getD d
  set := fun _ v => some v
  clear := fun _ => none
  mutableF := fun _ => 0

/-- Modelled from the spec: the capability closures of fieldInfoForOneof
are not under src/. Per spec sections 3 and 4.2, a oneof group's members
share one tagged-union storage slot (modelled as Option (member × value)):
has is true iff this member is the active one, set makes this member
active (implicitly deactivating every other member), get on an inactive
member returns this member's type default d, clear deactivates the group
only when this member is active. -/
def oneofFieldFuncs (n : Nat) (d : Value) :
    FieldInfoFuncs (Option (Nat × Value)) where
  has := fun s =>
    match s with
    | some (m, _) => m = n
    | none => false
  get := fun s =>
    match s with
    | some (m, v) => if m = n then v else d
    | none => d
  set := fun _ v => some (n, v)
  clear := fun s =>
    match s with
    | some (m, _) => if m = n then none else s
    | none => none
  mutableF := fun _ => 0

/-- C2: on the known-fields facade, a field number with no FieldInfo in
the dispatch table makes Set, Clear and Mutable panic (the fatal
"invalid field" usage error), while Has returns false and Get returns the
zero Value, never panicking (both are total functions into Bool/Value). -/
theorem knownFields_unknown_number {σ : Type} (fs : KnownFields σ) (n : Nat)
    (h : lookupFI fs.fields n = none) :
    fs.Has n = false ∧ fs.Get n = Value.zero ∧
    (∀ v, fs.Set n v = .error ("invalid field: " ++ toString n)) ∧
    fs.Clear n = .error ("invalid field: " ++ toString n) ∧
    fs.Mutable n = .error ("invalid field: " ++ toString n) := by
  refine ⟨?_, ?_, fun v => ?_, ?_, ?_⟩ <;>
    simp [KnownFields.Has, KnownFields.Get, KnownFields.Set, KnownFields.Clear,
      KnownFields.Mutable, h]

/-- A concrete one-field view for the facade witnesses. -/
def wKF : KnownFields (Option Value) :=
  ⟨none, [(1, scalarFieldFuncs (Value.boolV true))]⟩

theorem knownFields_unknown_number_witness :
    wKF.Has 5 = false ∧ wKF.Get 5 = Value.zero ∧
    (∀ v, wKF.Set 5 v = .error ("invalid field: " ++ toString 5)) ∧
    wKF.Clear 5 = .error ("invalid field: " ++ toString 5) ∧
    wKF.Mutable 5 = .error ("invalid field: " ++ toString 5) :=
  knownFields_unknown_number wKF 5 (by rfl)

/-- C3: for a scalar optional field with declared default d, in the
initial never-set state Has is false and Get returns d; after Set(v)
(from any state) Has is true and Get returns v; after a subsequent Clear,
Has is false again and Get returns d again. -/
theorem scalar_default_roundtrip (d v : Value) (s : Option Value) :
    (scalarFieldFuncs d).has none = false ∧
    (scalarFieldFuncs d).get none = d ∧
    (scalarFieldFuncs d).has ((scalarFieldFuncs d).set s v) = true ∧
    (scalarFieldFuncs d).get ((scalarFieldFuncs d).set s v) = v ∧
    (scalarFieldFuncs d).has
      ((scalarFieldFuncs d).clear ((scalarFieldFuncs d).set s v)) = false ∧
    (scalarFieldFuncs d).get
      ((scalarFieldFuncs d).clear ((scalarFieldFuncs d).set s v)) = d :=
  ⟨rfl, rfl, rfl, rfl, rfl, rfl⟩

/-- C4: oneof exclusivity. Setting member A then member B of the same
group leaves B the active member: Has(A) is false, Has(B) is true and
Get(B) returns the value set; moreover at most one member of the group is
present in any state of the shared slot. -/
theorem oneof_exclusive (A B : Nat) (dA dB x y : Value)
    (s0 : Option (Nat × Value)) (hAB : A ≠ B) :
    ((oneofFieldFuncs A dA).has
        ((oneofFieldFuncs B dB).set ((oneofFieldFuncs A dA).set s0 x) y) = false ∧
      (oneofFieldFuncs B dB).has
        ((oneofFieldFuncs B dB).set ((oneofFieldFuncs A dA).set s0 x) y) = true ∧
      (oneofFieldFuncs B dB).get
        ((oneofFieldFuncs B dB).set ((oneofFieldFuncs A dA).set s0 x) y) = y) ∧
    (∀ (s : Option (Nat × Value)) (m m' : Nat) (dm dm' : Value),
      (oneofFieldFuncs m dm).has s = true →
      (oneofFieldFuncs m' dm').has s = true → m = m') := by
  constructor
  · refine ⟨?_, ?_, ?_⟩ <;> simp [oneofFieldFuncs, Ne.symm hAB]
  · intro s m m' dm dm' h1 h2
    cases s with
    | none => simp [oneofFieldFuncs] at h1
    | some p =>
      obtain ⟨k, v⟩ := p
      simp only [oneofFieldFuncs, decide_eq_true_eq] at h1 h2
      rw [← h1, ← h2]

theorem oneof_exclusive_witness :
    ((oneofFieldFuncs 1 Value.zero).has
        ((oneofFieldFuncs 2 Value.zero).set
          ((oneofFieldFuncs 1 Value.zero).set none (Value.intV 7))
          (Value.strV "y")) = false ∧
      (oneofFieldFuncs 2 Value.zero).has
        ((oneofFieldFuncs 2 Value.zero).set
          ((oneofFieldFuncs 1 Value.zero).set none (Value.intV 7))
          (Value.strV "y")) = true ∧
      (oneofFieldFuncs 2 Value.zero).get
        ((oneofFieldFuncs 2 Value.zero).set
          ((oneofFieldFuncs 1 Value.zero).set none (Value.intV 7))
          (Value.strV "y")) = Value.strV "y") ∧
    (∀ (s : Option (Nat × Value)) (m m' : Nat) (dm dm' : Value),
      (oneofFieldFuncs m dm).has s = true →
      (oneofFieldFuncs m' dm').has s = true → m = m') :=
  oneof_exclusive 1 2 Value.zero Value.zero (Value.intV 7) (Value.strV "y")
    none (by decide)

/-- A successful init always leaves the once flag set and the goType
bound to the record's dynamic type. -/
theorem init_ok_facts {mi mi' : MessageType} {p : GoValue}
    (h : mi.init p = .ok mi') :
    mi'.onceDone = true ∧ mi'.goType = some p.ty := by
  rw [MessageType.init] at h
  split at h
  · exact absurd h (by simp)
  · next mi2 heq =>
    split at h
    · exact absurd h (by simp)
    · next hty =>
      obtain rfl : mi2 = mi' := Except.ok.inj h
      refine ⟨?_, (not_ne_iff.mp hty).symm⟩
      split at heq
      · next honce =>
        obtain rfl := Except.ok.inj heq
        exact honce
      · split at heq
        · exact absurd heq (by simp)
        · split at heq
          · exact absurd heq (by simp)
          · split at heq
            · exact absurd heq (by simp)
            · have hinj := Except.ok.inj heq
              subst hinj
              exact rfl

/-- C8: MessageType.init is idempotent. If an init call succeeded and
returned the built state mi', then calling init again on mi' with a
record of the bound type performs no classification work and returns
exactly mi': the goType, pbType flag and the fully-built dispatch table
(mi'.fields) are left unchanged and observed identically. -/
theorem init_idempotent (mi mi' : MessageType) (p : GoValue)
    (h : mi.init p = .ok mi') :
    mi'.init p = .ok mi' := by
  obtain ⟨ho, hg⟩ := init_ok_facts h
  simp [MessageType.init, ho, hg]

/-- Concrete inputs for the init witnesses: a bool field number 1 with
default true, stored in the first field of a pointer-to-struct record. -/
def wSF1 : StructField := ⟨"F1", ["varint", "1", "opt"], "", [0]⟩

/-- The bool field descriptor of the witness message. -/
def wFD1 : FieldDescriptor := ⟨1, .boolK, .optionalC, false, false, none, .boolV true⟩

/-- The witness record type *struct with one tagged field. -/
def wRecTy : GoType := .ptr (.structT [wSF1] [])

/-- The MessageType state after the first successful init. -/
def wMT1 : MessageType :=
  ⟨⟨[wFD1]⟩, true, some wRecTy, true, [(1, .scalarT wSF1)]⟩

theorem init_idempotent_witness : wMT1.init ⟨wRecTy, false⟩ = .ok wMT1 :=
  init_idempotent (newMessageType ⟨[wFD1]⟩) wMT1 ⟨wRecTy, false⟩ (by rfl)

/-- C5 divergence witness: the validation condition of MessageType.init
(source line 47) combines its two tests with && where the documented
contract ("must be a pointer to a struct type", panic message "want
*struct kind") requires ||. A record whose dynamic type is []struct\x7b\x7d —
a slice of struct, not a pointer to a struct — passes the check
(Kind is not Ptr, but Elem().Kind() is Struct), and init completes
without any panic, returning a fully initialized binder bound to the
slice type. -/
theorem init_no_panic_on_slice_record :
    (newMessageType ⟨[]⟩).init ⟨.slice (.structT [] []), false⟩ =
      .ok ⟨⟨[]⟩, true, some (.slice (.structT [] [])), true, []⟩ := rfl

/-- C9: a record shape that declares a field's storage behind an
embedded/anonymous struct is rejected fatally during classification.
Promoted storage is invisible to the top-level fieldLoop, so the
descriptor field's StructField is the Go zero value with an empty Index,
and offsetOf inside the dispatcher constructor panics with "embedded
structs are not supported" before any field operation can run. Stated
for a leading scalar field (not weak, not oneof, not map, not repeated,
not message/group) whose number no top-level struct field is tagged
with. -/
theorem embedded_storage_rejected (sfs ws : List StructField)
    (fd : FieldDescriptor) (rest : List FieldDescriptor)
    (hw : fd.isWeak = false) (ho : fd.oneofName = none)
    (hm : fd.isMapField = false) (hc : fd.cardinality ≠ .repeatedC)
    (hk1 : fd.kind ≠ .messageK) (hk2 : fd.kind ≠ .groupK)
    (hmiss : lookupNat (collectStructFields sfs).fields fd.number = none) :
    generateFieldFuncs (.structT sfs ws) ⟨fd :: rest⟩ =
      .error "embedded structs are not supported" := by
  rw [generateFieldFuncs, buildFieldInfos]
  rw [hmiss]
  simp only [Option.getD_none, hw, Bool.false_eq_true, if_false, ho, hm, hc,
    hk1, hk2]
  rw [if_neg (by simp [hk1, hk2])]
  rfl

/-- A record shape whose only top-level field is an untagged anonymous
embedded struct: the tagged storage sits inside it, promoted, so no
top-level field carries the protobuf tag of field number 1. -/
def wEmbedded : StructField := ⟨"EmbeddedStorage", [], "", [0]⟩

theorem embedded_storage_rejected_witness :
    generateFieldFuncs (.structT [wEmbedded] []) ⟨[wFD1]⟩ =
      .error "embedded structs are not supported" :=
  embedded_storage_rejected [wEmbedded] [] wFD1 [] (by rfl) (by rfl) (by rfl)
    (by decide) (by decide) (by decide) (by rfl)

end Impl
